import Mathlib

/-!
# Verification of the cargo-msrv search core

A shallow embedding of the "find MSRV" core of the `cargo-msrv` repository:
the data model of the event layer (`crates/events`, `src/reporter/event.rs`),
the rustup-based compatibility check (`src/check/rustup_toolchain_check.rs`),
the error taxonomy (`src/errors.rs`), and the find/orchestrator flow
(`src/subcommands/find.rs`).  Components of the repository that are not part
of the provided sources (the search strategies, the release filter, the
lockfile handler and the scoped-event reporter helper) are modelled from the
natural-language specification; each such definition carries a doc comment
starting with `Modelled from the spec:`.

Machine integers of the source (version components, exit codes) are modelled
as `Nat`; none of the modelled operations can overflow their 64-bit source
types for the inputs considered.  Fallible Rust functions returning
`TResult<T>` are modelled as `Except CargoMSRVError T`.  Filesystem state
touched by the lockfile logic is passed explicitly (`FsState`), and the
event stream of the reporter is an explicit `List Event` result component.
-/

/-- Semantic version triple, from `rust_releases::semver::Version` as used by
the sources (major, minor, patch). -/
structure Version where
  major : Nat
  minor : Nat
  patch : Nat
deriving DecidableEq, Repr

/-- Total order used by the release index: lexicographic on
(major, minor, patch). -/
def Version.le (a b : Version) : Bool :=
  (a.major < b.major) ||
    (a.major = b.major && (a.minor < b.minor ||
      (a.minor = b.minor && a.patch ≤ b.patch)))

/-- Render a version as `MAJ.MIN.PAT`, as `Display for Version` does. -/
def Version.render (v : Version) : String :=
  toString v.major ++ "." ++ toString v.minor ++ "." ++ toString v.patch

/-- `BareVersion` from `src/manifest/bare_version.rs`: an author-supplied
version with two or three components. -/
inductive BareVersion where
  | twoComponents (major minor : Nat)
  | threeComponents (major minor patch : Nat)
deriving DecidableEq, Repr

/-- `impl From<&Version> for BareVersion`: a full version becomes a
three-component bare version. -/
def versionToBare (v : Version) : BareVersion :=
  .threeComponents v.major v.minor v.patch

/-- A release from the `rust_releases` index; only the version matters to the
search core.  The index hands releases to the core newest-first. -/
structure Release where
  version : Version
deriving DecidableEq, Repr

instance : Inhabited Release := ⟨⟨⟨0, 0, 0⟩⟩⟩

/-- `ToolchainSpec` (`src/toolchain.rs`): a version paired with a target
triple. -/
structure ToolchainSpec where
  version : Version
  target : String
deriving DecidableEq, Repr

/-- The toolchain spec string `<version>-<target>`. -/
def ToolchainSpec.spec (t : ToolchainSpec) : String :=
  t.version.render ++ "-" ++ t.target

/-- `SearchMethod` from `src/config.rs`. -/
inductive SearchMethod where
  | linear
  | bisect
deriving DecidableEq, Repr

/-- `IoErrorSource` from `src/errors.rs` (the variants exercised by the
modelled code). -/
inductive IoErrorSource where
  | removeFile (path : String)
  | renameFile (path : String)
deriving DecidableEq, Repr

/-- `CargoMSRVError` from `src/errors.rs`, restricted to the variants that the
modelled find/check flow can produce.  `rustReleasesEmptyReleaseSet` is the
variant `find.rs` raises on an empty release slice. -/
inductive CargoMSRVError where
  | genericMessage (msg : String)
  | io (source : IoErrorSource)
  | noCrateRootFound
  | rustReleasesEmptyReleaseSet
  | rustupInstallFailed (toolchain : String)
  | unableToFindAnyGoodVersion (command : String)
  | unableToRunCheck
deriving DecidableEq, Repr

/-- `Outcome` (`src/outcome.rs`): the classification of one probe. -/
inductive Outcome where
  | success (toolchainSpec : ToolchainSpec)
  | failure (toolchainSpec : ToolchainSpec) (errorMessage : String)
deriving DecidableEq, Repr

/-- `MinimalCompatibility` (`src/result.rs`): the final search result. -/
inductive MinimalCompatibility where
  | capableToolchain (toolchain : ToolchainSpec)
  | noCompatibleToolchains
deriving DecidableEq, Repr

/-- `CompatibilityReport` from `crates/events/src/event/compatibility.rs`. -/
inductive CompatibilityReport where
  | compatible
  | incompatible (error : Option String)
deriving DecidableEq, Repr

/-- Whether a report is the `Compatible` case. -/
def CompatibilityReport.isCompatible : CompatibilityReport → Bool
  | .compatible => true
  | .incompatible _ => false

/-- The `Compatibility` event payload
(`crates/events/src/event/compatibility.rs`): toolchain, a private boolean
`decision`, and the report. -/
structure Compatibility where
  toolchain : ToolchainSpec
  decision : Bool
  compatibilityReport : CompatibilityReport
deriving DecidableEq, Repr

/-- Constructor `Compatibility::compatible`. -/
def Compatibility.compatible (toolchain : ToolchainSpec) : Compatibility :=
  { toolchain := toolchain
    decision := true
    compatibilityReport := .compatible }

/-- Constructor `Compatibility::incompatible`. -/
def Compatibility.incompatible (toolchain : ToolchainSpec)
    (error : Option String) : Compatibility :=
  { toolchain := toolchain
    decision := false
    compatibilityReport := .incompatible error }

/-- `Method` from `crates/events/src/event/compatibility_check_method.rs`;
the argument vector is modelled as its joined string. -/
inductive Method where
  | rustupRun (args : String) (path : Option String)
deriving DecidableEq, Repr

/-- `ResultDetails` from `src/reporter/event/msrv_result.rs`: the serialized
`success`/`version` payload (`success: True` and `success: False` are
type-level booleans in the source). -/
inductive ResultDetails where
  | determined (version : Version)
  | undetermined
deriving DecidableEq, Repr

/-- The `MsrvResult` event payload from `src/reporter/event/msrv_result.rs`. -/
structure MsrvResult where
  target : String
  minimumVersion : BareVersion
  maximumVersion : BareVersion
  searchMethod : SearchMethod
  result : ResultDetails
deriving DecidableEq, Repr

/-- The serialized `success` field of an `MsrvResult`, determined by the
`ResultDetails` variant (`True` for `Determined`, `False` for
`Undetermined`). -/
def MsrvResult.success (m : MsrvResult) : Bool :=
  match m.result with
  | .determined _ => true
  | .undetermined => false

/-- `MsrvResult::msrv`. -/
def MsrvResult.msrv (m : MsrvResult) : Option Version :=
  match m.result with
  | .determined v => some v
  | .undetermined => none

/-- Configuration inputs consumed by the modelled core (`src/config.rs` is not
among the sources; the fields follow the spec's `Config` enumeration and the
accessors the sources call). -/
structure Config where
  target : String
  minimumVersion : Option BareVersion
  maximumVersion : Option BareVersion
  includeAllPatchReleases : Bool
  searchMethod : SearchMethod
  checkCommand : List String
  cratePath : Option String
  ignoreLockfile : Bool
  noCheckFeedback : Bool
deriving DecidableEq, Repr

/-- Modelled from the spec: `config.check_command_string()` reconstructs the
verification command by joining its argv with spaces (`src/config.rs` is not
among the sources). -/
def Config.check_command_string (c : Config) : String :=
  String.intercalate " " c.checkCommand

/-- `EventScope` from `src/reporter/event.rs`. -/
inductive EventScope where
  | start
  | «end»
deriving DecidableEq, Repr

/-- `Message` from `src/reporter/event.rs`: the closed sum of observable
steps.  The payloads the claims need are carried explicitly; the remaining
variants are retained as tags.  The probe-bracketing payload is named
`NewCompatibilityCheck` in `event.rs`; the check implementation constructs it
under its newer name `CheckToolchain` — both denote the same message. -/
inductive Message where
  | meta
  | fetchIndex
  | setupToolchain (toolchain : ToolchainSpec)
  | newCompatibilityCheck (toolchain : ToolchainSpec)
  | compatibilityCheckMethod (toolchain : ToolchainSpec) (method : Method)
  | compatibility (report : Compatibility)
  | msrvResult (result : MsrvResult)
  | search (method : SearchMethod)
  | progress (current total iteration : Nat)
  | listDep
  | terminateWithFailure (cause : String)
deriving DecidableEq, Repr

/-- `Event` from `src/reporter/event.rs`: a message with an optional scope. -/
structure Event where
  message : Message
  scope : Option EventScope
deriving DecidableEq, Repr

/-- `impl From<Message> for Event`: wraps a message with `scope: None`. -/
def Event.ofMessage (m : Message) : Event :=
  { message := m, scope := none }

/-- `Event::with_scope`. -/
def Event.withScope (e : Event) (scope : EventScope) : Event :=
  { e with scope := some scope }

/-- `Event::is_scope_start`: true for the start of a scope or for an event
without a scope. -/
def Event.is_scope_start (e : Event) : Bool :=
  match e.scope with
  | none => true
  | some .start => true
  | some .«end» => false

/-! ## The rustup toolchain check (`src/check/rustup_toolchain_check.rs`)

The probe mutates the filesystem (the package lockfile) and spawns external
processes.  The filesystem slice the probe touches is the lockfile at the
crate root and its shadow location; the external world (toolchain download,
rustup process) is an oracle passed in as `CheckEnv`. -/

/-- The lockfile-relevant filesystem state: content of `Cargo.lock` at the
crate root, and content at the shadow path the `LockfileHandler` moves it
to. `none` means the file does not exist. -/
structure FsState where
  rootLock : Option String
  shadowLock : Option String
deriving DecidableEq, Repr

/-- Modelled from the spec: `LockfileHandler::move_lockfile`
(`src/lockfile.rs` is not among the sources) renames the lockfile from the
crate root to the reserved shadow path. -/
def moveLockfile (s : FsState) : FsState :=
  { rootLock := none, shadowLock := s.rootLock }

/-- Modelled from the spec: `LockfileHandler::move_lockfile_back`
(`src/lockfile.rs` is not among the sources) renames the shadow back to the
crate root. -/
def moveLockfileBack (s : FsState) : FsState :=
  { rootLock := s.shadowLock, shadowLock := none }

/-- `RustupToolchainCheck::remove_lockfile`: removes the lockfile at the crate
root if it exists. -/
def removeLockfile (s : FsState) : FsState :=
  { s with rootLock := none }

/-- The external-world oracle of one probe: whether the crate root can be
located, whether the toolchain download succeeds, and the observable result
of the spawned rustup process (`none` when the process cannot be spawned or
waited on; otherwise its exit code and captured stderr). -/
structure CheckEnv where
  crateRootOk : Bool
  downloadOk : Bool
  rustupRun : Option (Nat × String)
deriving DecidableEq, Repr

/-- `RustupToolchainCheck::run_check_command_via_rustup`: emit the
`CompatibilityCheckMethod` event, run the check under rustup, classify exit
code 0 as `Success` and anything else as `Failure` with the captured stderr;
a spawn/wait failure becomes the error `UnableToRunCheck`. -/
def run_check_command_via_rustup (env : CheckEnv) (toolchain : ToolchainSpec)
    (dir : Option String) (checkCmd : String) :
    List Event × Except CargoMSRVError Outcome :=
  let methodEvent :=
    Event.ofMessage (.compatibilityCheckMethod toolchain (.rustupRun checkCmd dir))
  match env.rustupRun with
  | none => ([methodEvent], .error .unableToRunCheck)
  | some (exitCode, stderr) =>
      if exitCode = 0 then
        ([methodEvent], .ok (.success toolchain))
      else
        ([methodEvent], .ok (.failure toolchain stderr))

/-- `RustupToolchainCheck::report_outcome`: the `Compatibility` event emitted
for one outcome; a `Failure` outcome omits the stderr payload when
`no_error_report` (i.e. `config.no_check_feedback()`) is set. -/
def report_outcome (outcome : Outcome) (noErrorReport : Bool) : List Event :=
  match outcome with
  | .success t =>
      [Event.ofMessage (.compatibility (Compatibility.compatible t))]
  | .failure t errorMessage =>
      if noErrorReport then
        [Event.ofMessage (.compatibility (Compatibility.incompatible t none))]
      else
        [Event.ofMessage (.compatibility (Compatibility.incompatible t (some errorMessage)))]

/-- The body of `RustupToolchainCheck::check` (the closure passed to
`run_scoped_event`): resolve the lockfile path, displace the lockfile when
`ignore_lockfile` is set and it exists, prepare the toolchain (download, then
remove a remaining lockfile), run the check command, report the outcome, and
— only on this path — move the displaced lockfile back.  Every `?` of the
source is an early `.error` return here, with the filesystem state reached so
far. -/
def checkBody (cfg : Config) (env : CheckEnv) (toolchain : ToolchainSpec)
    (fs : FsState) : List Event × FsState × Except CargoMSRVError Outcome :=
  if env.crateRootOk = false then
    ([], fs, .error .noCrateRootFound)
  else
    let hasHandle := cfg.ignoreLockfile && fs.rootLock.isSome
    let fs1 := if hasHandle then moveLockfile fs else fs
    if env.downloadOk = false then
      ([], fs1, .error (.rustupInstallFailed toolchain.spec))
    else
      let fs2 := if cfg.ignoreLockfile then removeLockfile fs1 else fs1
      let (evs, res) :=
        run_check_command_via_rustup env toolchain cfg.cratePath
          cfg.check_command_string
      match res with
      | .error e => (evs, fs2, .error e)
      | .ok outcome =>
          let evs2 := report_outcome outcome cfg.noCheckFeedback
          let fs3 := if hasHandle then moveLockfileBack fs2 else fs2
          (evs ++ evs2, fs3, .ok outcome)

/-- `RustupToolchainCheck::check`: the probe body wrapped in the reporter's
scoped event.  Modelled from the spec for the wrapper itself
(`run_scoped_event` lives in `src/reporter.rs`, not among the sources): the
bracketing event is emitted with `scope = Start` before the body and with
`scope = End` after it, on every exit path of the body including failure.
The bracketing payload is the probe message for this toolchain
(`CheckToolchain` in the check source, `NewCompatibilityCheck` in
`event.rs`). -/
def check (cfg : Config) (env : CheckEnv) (toolchain : ToolchainSpec)
    (fs : FsState) : List Event × FsState × Except CargoMSRVError Outcome :=
  let scopedEvent := Event.ofMessage (.newCompatibilityCheck toolchain)
  let (evs, fs', res) := checkBody cfg env toolchain fs
  (scopedEvent.withScope .start :: evs ++ [scopedEvent.withScope .«end»],
    fs', res)

/-! ## Search strategies and the find flow (`src/subcommands/find.rs`)

The strategies `Linear` and `Bisect` (`src/search_methods/`) are not among
the sources and are modelled from the spec.  A probe capability (`Check`)
is abstracted as a function from a toolchain to a probe result; the
operational trace of the flow records each probe and each strategy
invocation as a `SearchAction`. -/

/-- The probe capability handed to a strategy: one call per candidate
toolchain, classified as an `Outcome` or failing with an infrastructure
error. -/
def Runner : Type := ToolchainSpec → Except CargoMSRVError Outcome

/-- The operational trace of the find flow: which strategy was invoked, and
which toolchains were probed. -/
inductive SearchAction where
  | strategyInvoked (method : SearchMethod)
  | probed (toolchain : ToolchainSpec)
deriving DecidableEq, Repr

/-- The toolchain a strategy probes for a release: the release's version with
the configured target. -/
def tcOf (cfg : Config) (r : Release) : ToolchainSpec :=
  { version := r.version, target := cfg.target }

/-- Modelled from the spec: the `Linear` strategy
(`src/search_methods/linearapping.rs` is not among the sources).  Walk the
newest-first slice from oldest to newest; the first probe that returns
`Success` is the answer; a probe that fails with an error aborts the whole
search; if the walk completes without a success, there is no compatible
toolchain. -/
def linearFindToolchain (runner : Runner) (cfg : Config) :
    List Release → List SearchAction × Except CargoMSRVError MinimalCompatibility
  | [] => ([], .ok .noCompatibleToolchains)
  | r :: rs =>
      let (log, res) := linearFindToolchain runner cfg rs
      match res with
      | .ok .noCompatibleToolchains =>
          let t := tcOf cfg r
          match runner t with
          | .ok (.success _) => (log ++ [.probed t], .ok (.capableToolchain t))
          | .ok (.failure _ _) => (log ++ [.probed t], .ok .noCompatibleToolchains)
          | .error e => (log ++ [.probed t], .error e)
      | res => (log, res)

/-- The final result of the bisection: the last known success, if any. -/
def bestToMC (best : Option ToolchainSpec) : MinimalCompatibility :=
  match best with
  | some t => .capableToolchain t
  | none => .noCompatibleToolchains

/-- Modelled from the spec: the loop of the `Bisect` strategy
(`src/search_methods/bisect.rs` is not among the sources).  Maintain the
inclusive window `[lo, hi]` over the newest-first indices and probe
`mid = lo + (hi - lo) / 2`: on `Success` record `mid` as the last known
success and narrow to `[mid + 1, hi]`; on `Failure` narrow to
`[lo, mid - 1]` (the empty window when `mid = 0`); an error aborts the
search; when the window empties, the answer is the last known success. -/
def bisectGo (runner : Runner) (cfg : Config) (slice : List Release)
    (lo hi : Nat) (best : Option ToolchainSpec) :
    List SearchAction × Except CargoMSRVError MinimalCompatibility :=
  if h : lo ≤ hi then
    let mid := lo + (hi - lo) / 2
    let t := tcOf cfg (slice.getD mid default)
    match runner t with
    | .error e => ([.probed t], .error e)
    | .ok (.success _) =>
        let rest := bisectGo runner cfg slice (mid + 1) hi (some t)
        (.probed t :: rest.1, rest.2)
    | .ok (.failure _ _) =>
        if hm : mid = 0 then
          ([.probed t], .ok (bestToMC best))
        else
          let rest := bisectGo runner cfg slice lo (mid - 1) best
          (.probed t :: rest.1, rest.2)
  else
    ([], .ok (bestToMC best))
termination_by hi + 1 - lo
decreasing_by
  · omega
  · omega

/-- Modelled from the spec: the `Bisect` strategy entry point: bisect over the
whole slice, starting from the window `[0, length - 1]` (empty slice: no
window, no compatible toolchain). -/
def bisectFindToolchain (runner : Runner) (cfg : Config) (slice : List Release) :
    List SearchAction × Except CargoMSRVError MinimalCompatibility :=
  if slice.length = 0 then
    ([], .ok .noCompatibleToolchains)
  else
    bisectGo runner cfg slice 0 (slice.length - 1) none

/-- `min_max_releases` (`src/subcommands/find.rs`): the bare bounds of the
filtered slice, `(last.version, first.version)`; each lookup fails with
`RustReleasesEmptyReleaseSet` on an empty slice. -/
def min_max_releases (rustReleases : List Release) :
    Except CargoMSRVError (BareVersion × BareVersion) :=
  match rustReleases.getLast? with
  | none => .error .rustReleasesEmptyReleaseSet
  | some mn =>
      match rustReleases.head? with
      | none => .error .rustReleasesEmptyReleaseSet
      | some mx => .ok (versionToBare mn.version, versionToBare mx.version)

/-- `MsrvResult::new_msrv`: the event payload for a determined MSRV; the
configured bounds take precedence over the bounds computed from the slice. -/
def MsrvResult.new_msrv (version : Version) (cfg : Config)
    (min max : BareVersion) : MsrvResult :=
  { target := cfg.target
    minimumVersion := cfg.minimumVersion.getD min
    maximumVersion := cfg.maximumVersion.getD max
    searchMethod := cfg.searchMethod
    result := .determined version }

/-- `MsrvResult::none`: the event payload when no compatible toolchain was
found. -/
def MsrvResult.none (cfg : Config) (min max : BareVersion) : MsrvResult :=
  { target := cfg.target
    minimumVersion := cfg.minimumVersion.getD min
    maximumVersion := cfg.maximumVersion.getD max
    searchMethod := cfg.searchMethod
    result := .undetermined }

/-- `report_outcome` (`src/subcommands/find.rs`): compute the slice bounds
(failing on an empty slice), then emit the one `MsrvResult` event for the
search result. -/
def reportOutcomeFind (minimumCapable : MinimalCompatibility)
    (releases : List Release) (cfg : Config) :
    List Event × Except CargoMSRVError Unit :=
  match min_max_releases releases with
  | .error e => ([], .error e)
  | .ok (min, max) =>
      match minimumCapable with
      | .capableToolchain t =>
          ([Event.ofMessage (.msrvResult (MsrvResult.new_msrv t.version cfg min max))],
            .ok ())
      | .noCompatibleToolchains =>
          ([Event.ofMessage (.msrvResult (MsrvResult.none cfg min max))], .ok ())

/-- The output of the find flow: the operational trace, the emitted events,
and the result. -/
def FlowOut (α : Type) : Type :=
  List SearchAction × List Event × Except CargoMSRVError α

/-- `run_searcher` (`src/subcommands/find.rs`): invoke the strategy's
`find_toolchain`, then `report_outcome` on its result; the strategy
invocation is the first recorded action. -/
def run_searcher (m : SearchMethod)
    (strategy : Runner → Config →
      List Release → List SearchAction × Except CargoMSRVError MinimalCompatibility)
    (releases : List Release) (cfg : Config) (runner : Runner) :
    FlowOut MinimalCompatibility :=
  let (log, res) := strategy runner cfg releases
  match res with
  | .error e => (.strategyInvoked m :: log, [], .error e)
  | .ok minimumCapable =>
      let (evs, res2) := reportOutcomeFind minimumCapable releases cfg
      match res2 with
      | .error e => (.strategyInvoked m :: log, evs, .error e)
      | .ok _ => (.strategyInvoked m :: log, evs, .ok minimumCapable)

/-- `run_with_search_method` (`src/subcommands/find.rs`): select the strategy
per `config.search_method()` and run it. -/
def run_with_search_method (cfg : Config) (includedReleases : List Release)
    (runner : Runner) : FlowOut MinimalCompatibility :=
  match cfg.searchMethod with
  | .linear => run_searcher .linear linearFindToolchain includedReleases cfg runner
  | .bisect => run_searcher .bisect bisectFindToolchain includedReleases cfg runner

/-- Modelled from the spec: step 1 of the release filter
(`src/releases.rs` is not among the sources): when
`include_all_patch_releases` is false, retain only the newest (first seen in
the newest-first list) release per (major, minor). -/
def retainNewestPatch (seen : List (Nat × Nat)) : List Release → List Release
  | [] => []
  | r :: rs =>
      if seen.contains (r.version.major, r.version.minor) then
        retainNewestPatch seen rs
      else
        r :: retainNewestPatch ((r.version.major, r.version.minor) :: seen) rs

/-- Modelled from the spec: the lower bound check of the release filter; a
two-component bare bound compares with its patch treated as 0. -/
def lowerBoundOk (min : Option BareVersion) (v : Version) : Bool :=
  match min with
  | none => true
  | some (.twoComponents major minor) => Version.le ⟨major, minor, 0⟩ v
  | some (.threeComponents major minor patch) => Version.le ⟨major, minor, patch⟩ v

/-- Modelled from the spec: the upper bound check of the release filter; a
two-component bare bound compares by (major, minor) only (its patch treated
as infinite). -/
def upperBoundOk (max : Option BareVersion) (v : Version) : Bool :=
  match max with
  | none => true
  | some (.twoComponents major minor) =>
      (v.major < major) || (v.major = major && v.minor ≤ minor)
  | some (.threeComponents major minor patch) => Version.le v ⟨major, minor, patch⟩

/-- Modelled from the spec: `filter_releases` (`src/releases.rs` is not among
the sources): keep the newest patch release per minor unless configured
otherwise, then drop releases outside the configured inclusive bounds,
preserving the newest-first order. -/
def filter_releases (cfg : Config) (releases : List Release) : List Release :=
  let patched :=
    if cfg.includeAllPatchReleases then releases else retainNewestPatch [] releases
  patched.filter fun r =>
    lowerBoundOk cfg.minimumVersion r.version && upperBoundOk cfg.maximumVersion r.version

/-- `search` (`src/subcommands/find.rs`): filter the index's releases, then
run the configured search method over the filtered slice. -/
def searchFind (cfg : Config) (releases : List Release) (runner : Runner) :
    FlowOut MinimalCompatibility :=
  run_with_search_method cfg (filter_releases cfg releases) runner

/-- `find_msrv` (`src/subcommands/find.rs`): run the search; no compatible
toolchain becomes the error `UnableToFindAnyGoodVersion` carrying the
reconstructed check command; a capable toolchain yields its version.  The
post-search writers (`write_toolchain_file`, `write_msrv`, not among the
sources) are modelled from the spec as pure delegations that do not influence
the result. -/
def find_msrv (cfg : Config) (releases : List Release) (runner : Runner) :
    FlowOut Version :=
  let (log, evs, res) := searchFind cfg releases runner
  match res with
  | .error e => (log, evs, .error e)
  | .ok .noCompatibleToolchains =>
      (log, evs, .error (.unableToFindAnyGoodVersion cfg.check_command_string))
  | .ok (.capableToolchain t) => (log, evs, .ok t.version)

/-! ## Concrete fixtures

Closed inputs used by witnesses and counterexamples. -/

/-- A host target triple. -/
def hostTarget : String := "x86_64-unknown-linux-gnu"

/-- A baseline configuration: linear search, no bounds, defaults off. -/
def cfgBase : Config :=
  { target := hostTarget
    minimumVersion := none
    maximumVersion := none
    includeAllPatchReleases := true
    searchMethod := .linear
    checkCommand := ["cargo", "check"]
    cratePath := none
    ignoreLockfile := false
    noCheckFeedback := false }

/-- A concrete toolchain. -/
def tc156 : ToolchainSpec := { version := ⟨1, 56, 0⟩, target := hostTarget }

/-- A concrete toolchain for the 1.40.0 release. -/
def tc140 : ToolchainSpec := { version := ⟨1, 40, 0⟩, target := hostTarget }

/-- The two-release slice of the spec's no-compatible scenario,
newest-first. -/
def slice2 : List Release := [⟨⟨1, 40, 0⟩⟩, ⟨⟨1, 39, 0⟩⟩]

/-- The five-release slice of the spec's search scenarios, newest-first. -/
def slice5 : List Release :=
  [⟨⟨1, 60, 0⟩⟩, ⟨⟨1, 59, 0⟩⟩, ⟨⟨1, 58, 0⟩⟩, ⟨⟨1, 57, 0⟩⟩, ⟨⟨1, 56, 0⟩⟩]

/-- The compatibility predicate `v ≥ 1.58.0`. -/
def p58 : ToolchainSpec → Bool := fun t => Version.le ⟨1, 58, 0⟩ t.version

/-- A deterministic, infallible probe capability given by a pure
compatibility predicate: the test-double form of the pluggable `Check`. -/
def predRunner (P : ToolchainSpec → Bool) : Runner := fun t =>
  .ok (if P t then .success t else .failure t "")

/-! ## Helper lemmas -/

/-- Every event emitted by `run_check_command_via_rustup` is a plain message
(no scope). -/
theorem run_check_events_unscoped (env : CheckEnv) (t : ToolchainSpec)
    (dir : Option String) (cmd : String) :
    ∀ e ∈ (run_check_command_via_rustup env t dir cmd).1, e.scope = none := by
  intro e he
  unfold run_check_command_via_rustup at he
  rcases h : env.rustupRun with _ | ⟨code, stderr⟩ <;> rw [h] at he
  · simp [Event.ofMessage] at he
    simp [he]
  · by_cases hc : code = 0 <;> simp [hc, Event.ofMessage] at he <;> simp [he]

/-- Every event emitted by the check's `report_outcome` is a plain message
(no scope). -/
theorem report_outcome_events_unscoped (outcome : Outcome) (flag : Bool) :
    ∀ e ∈ report_outcome outcome flag, e.scope = none := by
  intro e he
  rcases outcome with t | ⟨t, msg⟩ <;> rcases flag <;>
    simp [report_outcome, Event.ofMessage] at he <;> simp [he]

/-- Every event emitted by the body of `RustupToolchainCheck::check` is a
plain message (no scope). -/
theorem checkBody_events_unscoped (cfg : Config) (env : CheckEnv)
    (t : ToolchainSpec) (fs : FsState) :
    ∀ e ∈ (checkBody cfg env t fs).1, e.scope = none := by
  intro e he
  unfold checkBody at he
  by_cases hroot : env.crateRootOk = false
  · simp [hroot] at he
  · rw [if_neg hroot] at he
    by_cases hdl : env.downloadOk = false
    · simp [hdl] at he
    · rw [if_neg hdl] at he
      rcases hrc : run_check_command_via_rustup env t cfg.cratePath
          cfg.check_command_string with ⟨evs, res⟩
      rw [hrc] at he
      rcases res with e' | outcome
      · simp at he
        have := run_check_events_unscoped env t cfg.cratePath cfg.check_command_string
        rw [hrc] at this
        exact this e he
      · simp [List.mem_append] at he
        rcases he with he | he
        · have := run_check_events_unscoped env t cfg.cratePath cfg.check_command_string
          rw [hrc] at this
          exact this e he
        · exact report_outcome_events_unscoped outcome cfg.noCheckFeedback e he

/-! ## Claim theorems: event layer and check runner -/

/-- C9: every `Compatibility` value built by the `compatible` or
`incompatible` constructor has `decision = true` exactly when its
`compatibility_report` is `Compatible`; the constructors cannot produce a
value where the two disagree. -/
theorem compatibility_decision_agrees_with_report (c : Compatibility)
    (h : (∃ t, c = Compatibility.compatible t) ∨
      ∃ t e, c = Compatibility.incompatible t e) :
    c.decision = true ↔ c.compatibilityReport.isCompatible = true := by
  rcases h with ⟨t, rfl⟩ | ⟨t, e, rfl⟩ <;>
    simp [Compatibility.compatible, Compatibility.incompatible,
      CompatibilityReport.isCompatible]

/-- Witness for C9 at a concrete `incompatible` value. -/
theorem compatibility_decision_agrees_with_report_witness :
    ((∃ t, Compatibility.incompatible tc156 (some "err") = Compatibility.compatible t) ∨
      ∃ t e, Compatibility.incompatible tc156 (some "err") = Compatibility.incompatible t e) ∧
    ((Compatibility.incompatible tc156 (some "err")).decision = true ↔
      (Compatibility.incompatible tc156 (some "err")).compatibilityReport.isCompatible = true) :=
  ⟨Or.inr ⟨tc156, some "err", rfl⟩,
    compatibility_decision_agrees_with_report _ (Or.inr ⟨tc156, some "err", rfl⟩)⟩

/-- C10: `Event::is_scope_start` is true exactly when the scope is not `End`
(that is, for `Start` and for scope-less single-shot messages), and every
event built `From<Message>` has no scope, hence `is_scope_start = true`. -/
theorem is_scope_start_characterization :
    (∀ e : Event, e.is_scope_start = true ↔ e.scope ≠ some EventScope.«end») ∧
    ∀ m : Message, (Event.ofMessage m).scope = none ∧
      (Event.ofMessage m).is_scope_start = true := by
  constructor
  · intro e
    rcases e with ⟨m, _ | s⟩
    · simp [Event.is_scope_start]
    · cases s <;> simp [Event.is_scope_start]
  · intro m
    exact ⟨rfl, rfl⟩

/-- C7: a `Failure` probe outcome is reported as an `Incompatible`
compatibility event whose error payload is omitted exactly when
`no_check_feedback` is set; a `Success` outcome is always reported as
`Compatible`. -/
theorem compatibility_event_feedback (t : ToolchainSpec) (stderr : String) :
    report_outcome (.failure t stderr) true =
      [Event.ofMessage (.compatibility (Compatibility.incompatible t none))] ∧
    report_outcome (.failure t stderr) false =
      [Event.ofMessage (.compatibility (Compatibility.incompatible t (some stderr)))] ∧
    ∀ flag, report_outcome (.success t) flag =
      [Event.ofMessage (.compatibility (Compatibility.compatible t))] :=
  ⟨rfl, rfl, fun _ => rfl⟩

/-- C5: the check runner classifies exit code 0 as `Success`, any other exit
code as `Failure` carrying the captured stderr, and a spawn/wait failure as
the error `UnableToRunCheck`. -/
theorem run_check_classification (env : CheckEnv) (t : ToolchainSpec)
    (dir : Option String) (cmd : String) :
    (env.rustupRun = none →
      (run_check_command_via_rustup env t dir cmd).2 = .error .unableToRunCheck) ∧
    (∀ stderr, env.rustupRun = some (0, stderr) →
      (run_check_command_via_rustup env t dir cmd).2 = .ok (.success t)) ∧
    (∀ exitCode stderr, env.rustupRun = some (exitCode, stderr) → exitCode ≠ 0 →
      (run_check_command_via_rustup env t dir cmd).2 = .ok (.failure t stderr)) := by
  refine ⟨fun h => ?_, fun stderr h => ?_, fun exitCode stderr h hc => ?_⟩
  · simp [run_check_command_via_rustup, h]
  · simp [run_check_command_via_rustup, h]
  · simp [run_check_command_via_rustup, h, hc]

/-- Witness for C5 at a concrete failing exit code. -/
theorem run_check_classification_witness :
    ({ crateRootOk := true, downloadOk := true,
        rustupRun := some (101, "boom") } : CheckEnv).rustupRun = some (101, "boom") ∧
    (101 : Nat) ≠ 0 ∧
    (run_check_command_via_rustup
        { crateRootOk := true, downloadOk := true, rustupRun := some (101, "boom") }
        tc156 none "cargo check").2 = .ok (.failure tc156 "boom") :=
  ⟨rfl, by decide,
    (run_check_classification _ tc156 none "cargo check").2.2 101 "boom" rfl (by decide)⟩

/-- C4: every probe's event stream is bracketed by exactly one
`NewCompatibilityCheck` Start event at its head and one matching End event
(same toolchain payload) at its tail, on every exit path; all events in
between — in particular the probe's `Compatibility` event when one is
emitted — are scope-less, so the Start precedes and the End follows them. -/
theorem check_event_bracketing (cfg : Config) (env : CheckEnv)
    (t : ToolchainSpec) (fs : FsState) :
    ∃ mid : List Event,
      (check cfg env t fs).1 =
        (Event.ofMessage (.newCompatibilityCheck t)).withScope .start ::
          (mid ++ [(Event.ofMessage (.newCompatibilityCheck t)).withScope .«end»]) ∧
      ∀ e ∈ mid, e.scope = none := by
  refine ⟨(checkBody cfg env t fs).1, ?_, checkBody_events_unscoped cfg env t fs⟩
  unfold check
  rcases h : checkBody cfg env t fs with ⟨evs, fs', res⟩
  simp [h]

/-- C3 (failing evaluation): with `ignore_lockfile` set and a lockfile
present, a probe whose prepare step fails (the toolchain download errors)
returns the error without moving the displaced lockfile back: the crate root
has no lockfile afterwards and the content is left at the shadow path.  The
same happens when the check invocation itself errors. -/
theorem check_lockfile_left_displaced_on_error :
    (check { cfgBase with ignoreLockfile := true }
        { crateRootOk := true, downloadOk := false, rustupRun := none }
        tc156 { rootLock := some "lockdata", shadowLock := none }).2.1 =
      { rootLock := none, shadowLock := some "lockdata" } ∧
    (check { cfgBase with ignoreLockfile := true }
        { crateRootOk := true, downloadOk := false, rustupRun := none }
        tc156 { rootLock := some "lockdata", shadowLock := none }).2.2 =
      .error (.rustupInstallFailed tc156.spec) ∧
    (check { cfgBase with ignoreLockfile := true }
        { crateRootOk := true, downloadOk := true, rustupRun := none }
        tc156 { rootLock := some "lockdata", shadowLock := none }).2.1 =
      { rootLock := none, shadowLock := some "lockdata" } ∧
    (check { cfgBase with ignoreLockfile := true }
        { crateRootOk := true, downloadOk := true, rustupRun := none }
        tc156 { rootLock := some "lockdata", shadowLock := none }).2.2 =
      .error .unableToRunCheck :=
  ⟨rfl, rfl, rfl, rfl⟩

/-! ## Claim theorems: find flow -/

/-- C2 (amended): when the filtered candidate slice is empty, the find flow
fails with `RustReleasesEmptyReleaseSet` and performs no probe; the selected
strategy, however, is invoked on the empty slice (returning no result and
probing nothing) before the failure is raised by the bounds computation of
`report_outcome`. -/
theorem search_empty_slice (cfg : Config) (releases : List Release)
    (runner : Runner) (h : filter_releases cfg releases = []) :
    (searchFind cfg releases runner).2.2 = .error .rustReleasesEmptyReleaseSet ∧
    (searchFind cfg releases runner).1 = [.strategyInvoked cfg.searchMethod] ∧
    (searchFind cfg releases runner).2.1 = [] := by
  unfold searchFind run_with_search_method
  rw [h]
  cases hsm : cfg.searchMethod <;>
    simp [run_searcher, linearFindToolchain, bisectFindToolchain,
      reportOutcomeFind, min_max_releases]

/-- Witness for C2's amended theorem at the empty release index. -/
theorem search_empty_slice_witness :
    filter_releases cfgBase [] = [] ∧
    ((searchFind cfgBase [] (predRunner fun _ => false)).2.2 =
        .error .rustReleasesEmptyReleaseSet ∧
      (searchFind cfgBase [] (predRunner fun _ => false)).1 =
        [.strategyInvoked cfgBase.searchMethod] ∧
      (searchFind cfgBase [] (predRunner fun _ => false)).2.1 = []) :=
  ⟨rfl, search_empty_slice cfgBase [] (predRunner fun _ => false) rfl⟩

/-- Counterexample for C2 as stated: at the concrete empty release index, the
operational trace of the flow records an invocation of the selected (linear)
strategy, so a strategy call does happen on an empty filtered slice — even
though the flow does fail with `RustReleasesEmptyReleaseSet`. -/
theorem search_empty_slice_counterexample :
    (searchFind cfgBase [] (predRunner fun _ => false)).1 =
      [SearchAction.strategyInvoked .linear] ∧
    (searchFind cfgBase [] (predRunner fun _ => false)).1 ≠ [] ∧
    (searchFind cfgBase [] (predRunner fun _ => false)).2.2 =
      .error .rustReleasesEmptyReleaseSet :=
  ⟨rfl, by decide, rfl⟩

/-- C6: when the search concludes without a compatible toolchain, `find_msrv`
fails with `UnableToFindAnyGoodVersion` carrying the config's reconstructed
check command string; when the search finds a capable toolchain, `find_msrv`
returns that toolchain's version. -/
theorem find_msrv_outcomes (cfg : Config) (releases : List Release)
    (runner : Runner) :
    ((searchFind cfg releases runner).2.2 = .ok .noCompatibleToolchains →
      (find_msrv cfg releases runner).2.2 =
        .error (.unableToFindAnyGoodVersion cfg.check_command_string)) ∧
    ∀ t, (searchFind cfg releases runner).2.2 = .ok (.capableToolchain t) →
      (find_msrv cfg releases runner).2.2 = .ok t.version := by
  unfold find_msrv
  rcases h : searchFind cfg releases runner with ⟨log, evs, res⟩
  refine ⟨fun hres => ?_, fun t hres => ?_⟩ <;> simp at hres <;> simp [hres]

/-- Witness for C6 at the spec's no-compatible scenario: two releases, a
probe that always fails. -/
theorem find_msrv_outcomes_witness :
    (searchFind cfgBase slice2 (predRunner fun _ => false)).2.2 =
      .ok .noCompatibleToolchains ∧
    (find_msrv cfgBase slice2 (predRunner fun _ => false)).2.2 =
      .error (.unableToFindAnyGoodVersion cfgBase.check_command_string) :=
  ⟨rfl, (find_msrv_outcomes cfgBase slice2 (predRunner fun _ => false)).1 rfl⟩

/-- C8: on a non-empty slice, the find-level `report_outcome` emits exactly
one event — the `MsrvResult` built from the bound pair computed from the
slice (oldest element's version as min, newest element's version as max) —
with `success = true` and the found version for a capable toolchain, and
`success = false` and no version otherwise. -/
theorem report_outcome_emits_one_msrv_result (cfg : Config)
    (slice : List Release) (mc : MinimalCompatibility) (h : slice ≠ []) :
    ∃ m : MsrvResult,
      reportOutcomeFind mc slice cfg = ([Event.ofMessage (.msrvResult m)], .ok ()) ∧
      m = (match mc with
           | .capableToolchain t =>
               MsrvResult.new_msrv t.version cfg
                 (versionToBare (slice.getLast h).version)
                 (versionToBare (slice.head h).version)
           | .noCompatibleToolchains =>
               MsrvResult.none cfg
                 (versionToBare (slice.getLast h).version)
                 (versionToBare (slice.head h).version)) ∧
      m.success = (match mc with
                   | .capableToolchain _ => true
                   | .noCompatibleToolchains => false) ∧
      m.msrv = (match mc with
                | .capableToolchain t => some t.version
                | .noCompatibleToolchains => none) := by
  have h1 : slice.getLast? = some (slice.getLast h) :=
    List.getLast?_eq_getLast_of_ne_nil h
  have h2 : slice.head? = some (slice.head h) := List.head?_eq_head h
  unfold reportOutcomeFind min_max_releases
  rw [h1, h2]
  cases mc <;> exact ⟨_, rfl, rfl, rfl, rfl⟩

/-- Witness for C8 at a concrete two-release slice and a capable result. -/
theorem report_outcome_emits_one_msrv_result_witness :
    slice2 ≠ [] ∧
    ∃ m : MsrvResult,
      reportOutcomeFind (.capableToolchain tc140) slice2 cfgBase =
        ([Event.ofMessage (.msrvResult m)], .ok ()) ∧
      m.success = true ∧ m.msrv = some tc140.version := by
  have h : slice2 ≠ [] := by simp [slice2]
  obtain ⟨m, h1, _, h3, h4⟩ :=
    report_outcome_emits_one_msrv_result cfgBase slice2 (.capableToolchain tc140) h
  exact ⟨h, m, h1, h3, h4⟩

/-! ## Claim theorems: strategy equivalence under a monotone predicate

A monotone-increasing compatibility predicate is, over the newest-first
slice, true exactly on an index prefix; both strategies then return the
answer at the frontier index. -/

/-- A monotone predicate over a newest-first slice has a frontier index `k`:
the predicate holds exactly at indices below `k`. -/
theorem monotone_frontier (P : ToolchainSpec → Bool) (cfg : Config)
    (slice : List Release)
    (hmono : ∀ i j, i ≤ j → j < slice.length →
      P (tcOf cfg (slice.getD j default)) = true →
      P (tcOf cfg (slice.getD i default)) = true) :
    ∃ k, k ≤ slice.length ∧
      ∀ i, i < slice.length →
        (P (tcOf cfg (slice.getD i default)) = true ↔ i < k) := by
  induction slice with
  | nil => exact ⟨0, by simp, by simp⟩
  | cons r rs ih =>
      have hmono' : ∀ i j, i ≤ j → j < rs.length →
          P (tcOf cfg (rs.getD j default)) = true →
          P (tcOf cfg (rs.getD i default)) = true := by
        intro i j hij hj hP
        have := hmono (i + 1) (j + 1) (by omega) (by simp; omega)
        simpa using this (by simpa using hP)
      obtain ⟨k, hk, hfr⟩ := ih hmono'
      by_cases hp : P (tcOf cfg r) = true
      · refine ⟨k + 1, by simp; omega, ?_⟩
        intro i hi
        cases i with
        | zero => simpa using hp
        | succ i =>
            have := hfr i (by simp at hi; omega)
            simp only [List.getD_cons_succ]
            rw [this]
            omega
      · refine ⟨0, by omega, ?_⟩
        intro i hi
        simp only [Nat.not_lt_zero, iff_false]
        intro hPi
        exact hp (hmono 0 i (by omega) hi hPi)

/-- The linear strategy with a pure frontier-`k` predicate returns the
toolchain at the frontier (oldest compatible index), or no compatible
toolchain when `k = 0`. -/
theorem linear_frontier (P : ToolchainSpec → Bool) (cfg : Config)
    (slice : List Release) (k : Nat) (hk : k ≤ slice.length)
    (hfront : ∀ i, i < slice.length →
      (P (tcOf cfg (slice.getD i default)) = true ↔ i < k)) :
    (linearFindToolchain (predRunner P) cfg slice).2 =
      .ok (if k = 0 then .noCompatibleToolchains
           else .capableToolchain (tcOf cfg (slice.getD (k - 1) default))) := by
  induction slice generalizing k with
  | nil =>
      have : k = 0 := by simpa using hk
      subst this
      simp [linearFindToolchain]
  | cons r rs ih =>
      have hk' : k - 1 ≤ rs.length := by simp at hk; omega
      have hfront' : ∀ i, i < rs.length →
          (P (tcOf cfg (rs.getD i default)) = true ↔ i < k - 1) := by
        intro i hi
        have := hfront (i + 1) (by simp; omega)
        simp only [List.getD_cons_succ] at this
        rw [this]
        omega
      have ih' := ih (k - 1) hk' hfront'
      rcases hres : linearFindToolchain (predRunner P) cfg rs with ⟨log, res⟩
      have hres2 : res = .ok (if k - 1 = 0 then .noCompatibleToolchains
          else .capableToolchain (tcOf cfg (rs.getD (k - 2) default))) := by
        have : (linearFindToolchain (predRunner P) cfg rs).2 = res := by rw [hres]
        rw [← this, ih']
        rcases Nat.eq_zero_or_pos (k - 1) with h0 | h0
        · simp [h0]
        · have h1 : ¬(k - 1 = 0) := by omega
          have h2 : k - 1 - 1 = k - 2 := by omega
          simp [h1, h2]
      match k, hk with
      | 0, _ =>
          have hp : P (tcOf cfg r) = false := by
            have := hfront 0 (by simp)
            simpa using this
          simp only [linearFindToolchain, hres]
          simp at hres2
          simp [hres2, predRunner, hp]
      | 1, _ =>
          have hp : P (tcOf cfg r) = true := (hfront 0 (by simp)).mpr (by omega)
          simp only [linearFindToolchain, hres]
          simp at hres2
          simp [hres2, predRunner, hp]
      | (n + 2), hk =>
          have h1 : ¬(n + 2 - 1 = 0) := by omega
          simp only [h1, if_false] at hres2
          simp only [linearFindToolchain, hres, hres2]
          have h2 : n + 2 - 1 = n + 1 := by omega
          have h3 : n + 2 - 2 = n := by omega
          simp [h2, h3]


/-- The bisection loop with a pure frontier-`k` predicate: over the window
`[lo, hi]`, it finds the frontier clipped to the window when the window
meets the compatible prefix, and otherwise keeps the last known success. -/
theorem bisect_go_frontier (P : ToolchainSpec → Bool) (cfg : Config)
    (slice : List Release) (k : Nat)
    (hfront : ∀ i, i < slice.length →
      (P (tcOf cfg (slice.getD i default)) = true ↔ i < k)) :
    ∀ (n lo hi : Nat) (best : Option ToolchainSpec), hi < slice.length →
      hi + 1 - lo ≤ n →
      (bisectGo (predRunner P) cfg slice lo hi best).2 =
        .ok (if lo < k ∧ lo ≤ hi then
              .capableToolchain (tcOf cfg (slice.getD (min hi (k - 1)) default))
             else bestToMC best) := by
  intro n
  induction n with
  | zero =>
      intro lo hi best hhi hle
      have hlh : ¬(lo ≤ hi) := by omega
      rw [bisectGo, dif_neg hlh]
      have hc : ¬(lo < k ∧ lo ≤ hi) := by omega
      rw [if_neg hc]
  | succ n ihn =>
      intro lo hi best hhi hle
      by_cases hlh : lo ≤ hi
      · rw [bisectGo, dif_pos hlh]
        simp only []
        set mid := lo + (hi - lo) / 2 with hmid
        have hmlo : lo ≤ mid := by omega
        have hmhi : mid ≤ hi := by omega
        have hmlen : mid < slice.length := by omega
        set t := tcOf cfg (slice.getD mid default) with ht
        by_cases hp : P t = true
        · have hmk : mid < k := (hfront mid hmlen).mp (by rw [← ht]; exact hp)
          have hstep : predRunner P t = .ok (.success t) := by
            simp [predRunner, hp]
          rw [hstep]
          simp only []
          rw [ihn (mid + 1) hi (some t) hhi (by omega)]
          by_cases hcond : mid + 1 < k ∧ mid + 1 ≤ hi
          · have hcond' : lo < k ∧ lo ≤ hi := ⟨by omega, hlh⟩
            rw [if_pos hcond, if_pos hcond']
          · have hcond' : lo < k ∧ lo ≤ hi := ⟨by omega, hlh⟩
            have hmideq : mid = min hi (k - 1) := by omega
            rw [if_neg hcond, if_pos hcond']
            show Except.ok (MinimalCompatibility.capableToolchain t) = _
            rw [ht, hmideq]
        · have hp' : P t = false := by
            revert hp
            cases P t <;> simp
          have hmk : k ≤ mid := by
            by_contra hlt
            have : P t = true := by
              rw [ht]
              exact (hfront mid hmlen).mpr (by omega)
            simp [this] at hp'
          have hstep : predRunner P t = .ok (.failure t "") := by
            simp [predRunner, hp']
          rw [hstep]
          simp only []
          by_cases hm0 : mid = 0
          · rw [dif_pos hm0]
            have hc : ¬(lo < k ∧ lo ≤ hi) := by omega
            rw [if_neg hc]
          · rw [dif_neg hm0]
            simp only []
            rw [ihn lo (mid - 1) best (by omega) (by omega)]
            by_cases hcond : lo < k ∧ lo ≤ mid - 1
            · have hcond' : lo < k ∧ lo ≤ hi := ⟨hcond.1, hlh⟩
              have hmineq : min (mid - 1) (k - 1) = min hi (k - 1) := by omega
              rw [if_pos hcond, if_pos hcond', hmineq]
            · have hc : ¬(lo < k ∧ lo ≤ hi) := by omega
              rw [if_neg hcond, if_neg hc]
      · rw [bisectGo, dif_neg hlh]
        have hc : ¬(lo < k ∧ lo ≤ hi) := by omega
        rw [if_neg hc]

/-- The bisect strategy with a pure frontier-`k` predicate returns the
toolchain at the frontier, or no compatible toolchain when `k = 0`: the same
answer as the linear strategy. -/
theorem bisect_frontier (P : ToolchainSpec → Bool) (cfg : Config)
    (slice : List Release) (k : Nat) (hk : k ≤ slice.length)
    (hfront : ∀ i, i < slice.length →
      (P (tcOf cfg (slice.getD i default)) = true ↔ i < k)) :
    (bisectFindToolchain (predRunner P) cfg slice).2 =
      .ok (if k = 0 then .noCompatibleToolchains
           else .capableToolchain (tcOf cfg (slice.getD (k - 1) default))) := by
  unfold bisectFindToolchain
  by_cases hlen : slice.length = 0
  · have hk0 : k = 0 := by omega
    rw [if_pos hlen, if_pos hk0]
  · rw [if_neg hlen,
      bisect_go_frontier P cfg slice k hfront slice.length 0 (slice.length - 1)
        none (by omega) (by omega)]
    by_cases hk0 : k = 0
    · have hc : ¬(0 < k ∧ 0 ≤ slice.length - 1) := by omega
      rw [if_neg hc, if_pos hk0]
      rfl
    · have hc : 0 < k ∧ 0 ≤ slice.length - 1 := ⟨by omega, by omega⟩
      rw [if_pos hc, if_neg hk0]
      have hmin : min (slice.length - 1) (k - 1) = k - 1 := by omega
      rw [hmin]

/-- C1: for a compatibility predicate that is monotone-increasing in version
over the newest-first slice (once a release is compatible, every newer one
is), the linear and bisect strategies return the same
`MinimalCompatibility`. -/
theorem linear_bisect_same_result (P : ToolchainSpec → Bool) (cfg : Config)
    (slice : List Release)
    (hmono : ∀ i j : Fin slice.length, i ≤ j →
      P (tcOf cfg (slice.get j)) = true → P (tcOf cfg (slice.get i)) = true) :
    (linearFindToolchain (predRunner P) cfg slice).2 =
      (bisectFindToolchain (predRunner P) cfg slice).2 := by
  have hmono' : ∀ i j, i ≤ j → j < slice.length →
      P (tcOf cfg (slice.getD j default)) = true →
      P (tcOf cfg (slice.getD i default)) = true := by
    intro i j hij hj hP
    have hi : i < slice.length := by omega
    have e1 : slice.getD i default = slice.get ⟨i, hi⟩ := List.getD_eq_get _ _ hi
    have e2 : slice.getD j default = slice.get ⟨j, hj⟩ := List.getD_eq_get _ _ hj
    rw [e1]
    rw [e2] at hP
    exact hmono ⟨i, hi⟩ ⟨j, hj⟩ hij hP
  obtain ⟨k, hk, hfr⟩ := monotone_frontier P cfg slice hmono'
  rw [linear_frontier P cfg slice k hk hfr, bisect_frontier P cfg slice k hk hfr]

/-- Witness for C1 at the spec's five-release slice with the predicate
`v ≥ 1.58.0`. -/
theorem linear_bisect_same_result_witness :
    (∀ i j : Fin slice5.length, i ≤ j →
      p58 (tcOf cfgBase (slice5.get j)) = true →
      p58 (tcOf cfgBase (slice5.get i)) = true) ∧
    (linearFindToolchain (predRunner p58) cfgBase slice5).2 =
      (bisectFindToolchain (predRunner p58) cfgBase slice5).2 :=
  ⟨by decide, linear_bisect_same_result p58 cfgBase slice5 (by decide)⟩
